import Mathlib

/-!
Verification of the fastai `sgdr.py` scheduling engine.

A shallow embedding of the learning-rate / weight-decay scheduling callbacks
of `src/fastai/sgdr.py`, together with theorems settling the specification
claims about them.

Modelling conventions:
* Python ints become `ℕ` (all the counters involved are non-negative);
  Python floats become `ℚ` where the computations are exact rational
  arithmetic, and `ℝ` where the source uses `cos` or fractional powers.
* A Python float `nan` input is modelled by the `Flt` type below.
* Python `/` raises `ZeroDivisionError` on a zero divisor, so functions
  whose source can divide by zero return `Option`, with `none` for the
  raised exception.
* Per-parameter-group vectors (`init_lrs`, numpy broadcasting) act
  elementwise; they are modelled by a single representative group.
-/

set_option maxRecDepth 4000

/-- A Python float that may be `nan`; used for losses fed to `on_batch_end`.
Any comparison against `nan` is false, as in IEEE/Python. -/
inductive Flt where
  | nan : Flt
  | val : ℚ → Flt
deriving DecidableEq, Repr

namespace Flt

/-- `math.isnan(loss)` -/
def isnan : Flt → Bool
  | .nan => true
  | .val _ => false

/-- `loss > q` for a float that may be nan (false on nan, as in Python). -/
def gtQ : Flt → ℚ → Bool
  | .nan, _ => false
  | .val x, q => decide (q < x)

/-- `loss < q` for a float that may be nan (false on nan, as in Python). -/
def ltQ : Flt → ℚ → Bool
  | .nan, _ => false
  | .val x, q => decide (x < q)

end Flt

/-! ## `smooth_curve` (src/fastai/sgdr.py lines 407-413)

```python
def smooth_curve(vals, beta):
    avg_val = 0
    smoothed = []
    for (i,v) in enumerate(vals):
        avg_val = beta * avg_val + (1-beta) * v
        smoothed.append(avg_val/(1-beta**(i+1)))
    return smoothed
```
The division raises `ZeroDivisionError` when `1 - beta**(i+1) == 0`,
hence the `Option` result. -/

/-- The loop of `smooth_curve`: `avg` is the running `avg_val`, `i` the
index of the next element. -/
def smoothGo (beta : ℚ) : ℚ → ℕ → List ℚ → Option (List ℚ)
  | _, _, [] => some []
  | avg, i, v :: vs =>
    let avg2 := beta * avg + (1 - beta) * v
    if 1 - beta ^ (i + 1) = 0 then none
    else (smoothGo beta avg2 (i + 1) vs).map fun rest =>
      avg2 / (1 - beta ^ (i + 1)) :: rest

/-- `smooth_curve(vals, beta)` (sgdr.py lines 407-413). -/
def smooth_curve (vals : List ℚ) (beta : ℚ) : Option (List ℚ) :=
  smoothGo beta 0 0 vals

/-- The exponential moving average `avg_val` after consuming a list of
values, starting from accumulator `a`. -/
def emaFrom (beta : ℚ) (a : ℚ) (vals : List ℚ) : ℚ :=
  vals.foldl (fun acc v => beta * acc + (1 - beta) * v) a

/-- `avg_val` after the first `i+1` input values. -/
def emaAvg (beta : ℚ) (vals : List ℚ) : ℚ := emaFrom beta 0 vals

/-! ## `WeightDecaySchedule.__init__` epoch-to-cycle-length table
(src/fastai/sgdr.py lines 357-363)

```python
self.epoch_to_num_cycles, i = dict(), 0
for cycle in range(n_cycles):
    for _ in range(cycle_len):
        self.epoch_to_num_cycles[i] = cycle_len
        i += 1
    cycle_len *= cycle_mult
```
The dict has consecutive integer keys `0..`, so it is modelled as the list
of its values in key order. -/

/-- The `epoch_to_num_cycles` table precomputed by
`WeightDecaySchedule.__init__`, as the list of values for epochs `0, 1, …`.
Recursion over `n_cycles`; each cycle contributes `cycle_len` epochs all
mapped to `cycle_len`, then `cycle_len` is multiplied by `cycle_mult`. -/
def epochToNumCycles (cycle_len cycle_mult : ℕ) : ℕ → List ℕ
  | 0 => []
  | n + 1 =>
    List.replicate cycle_len cycle_len ++
      epochToNumCycles (cycle_len * cycle_mult) cycle_mult n

/-! ## `CircularLR` (src/fastai/sgdr.py lines 209-239)

State fields mirror the Python attributes.  The `LossRecorder` base class
contributes the global `iteration` counter (reset to 0 in `on_train_begin`,
incremented at the top of `on_batch_end`); its metric lists do not affect
the cycle state and are omitted here.  `cbLog` is a ghost log of the
`cycle_count` arguments passed to the optional `on_cycle_end` callback
(appended only when a callback was supplied, `hasCb`). -/

structure CircState where
  nb : ℕ
  div : ℚ
  cut_div : ℕ
  hasCb : Bool
  iteration : ℕ
  cycle_iter : ℕ
  cycle_count : ℕ
  cbLog : List ℕ
deriving DecidableEq, Repr

namespace CircState

/-- `CircularLR.__init__` (sgdr.py lines 210-214): stores the parameters and
performs no validation whatsoever.  Modelled as `Option` to make the
fail-fast question statable: the result is always `some`. -/
def construct (nb : ℕ) (div : ℚ) (cut_div : ℕ) (hasCb : Bool) :
    Option CircState :=
  some { nb := nb, div := div, cut_div := cut_div, hasCb := hasCb,
         iteration := 0, cycle_iter := 0, cycle_count := 0, cbLog := [] }

/-- `CircularLR.calc_lr` (sgdr.py lines 220-231):

```python
cut_pt = self.nb//self.cut_div
if self.cycle_iter>cut_pt:
    pct = 1 - (self.cycle_iter - cut_pt)/(self.nb - cut_pt)
else: pct = self.cycle_iter/cut_pt
res = init_lrs * (1 + pct*(self.div-1)) / self.div
self.cycle_iter += 1
if self.cycle_iter==self.nb:
    self.cycle_iter = 0
    if self.on_cycle_end: self.on_cycle_end(self, self.cycle_count)
    self.cycle_count += 1
return res
```
`none` models the `ZeroDivisionError` raised when `cut_div`, `cut_pt`,
`nb - cut_pt` (in the taken branch) or `div` is zero; in that case the
state is not mutated (the exception aborts the call). -/
def calcLr (init : ℚ) (s : CircState) : Option (ℚ × CircState) :=
  if s.cut_div = 0 then none else
  let cut_pt := s.nb / s.cut_div
  let pct? : Option ℚ :=
    if cut_pt < s.cycle_iter then
      if (s.nb : ℚ) - (cut_pt : ℚ) = 0 then none
      else some (1 - ((s.cycle_iter : ℚ) - (cut_pt : ℚ)) / ((s.nb : ℚ) - (cut_pt : ℚ)))
    else
      if (cut_pt : ℚ) = 0 then none
      else some ((s.cycle_iter : ℚ) / (cut_pt : ℚ))
  match pct? with
  | none => none
  | some pct =>
    if s.div = 0 then none else
    let res := init * (1 + pct * (s.div - 1)) / s.div
    let s1 := { s with cycle_iter := s.cycle_iter + 1 }
    let s2 :=
      if s1.cycle_iter = s1.nb then
        { s1 with cycle_iter := 0,
                  cbLog := if s1.hasCb then s1.cbLog ++ [s1.cycle_count] else s1.cbLog,
                  cycle_count := s1.cycle_count + 1 }
      else s1
    some (res, s2)

/-- `CircularLR.on_train_begin` (sgdr.py lines 216-218) followed by the
inherited `LR_Updater.on_train_begin` (lines 99-103): zero the cycle state,
zero the recorder's `iteration`, then push the initial learning rate with
one `calc_lr` call. -/
def onTrainBegin (init : ℚ) (s : CircState) : Option (ℚ × CircState) :=
  calcLr init { s with iteration := 0, cycle_iter := 0, cycle_count := 0, cbLog := [] }

/-- `LR_Updater.on_batch_end` (sgdr.py lines 105-110) for `CircularLR`:
the `LossRecorder` base increments `iteration` (line 59), then `update_lr`
invokes `calc_lr`. -/
def onBatchEnd (init : ℚ) (s : CircState) : Option (ℚ × CircState) :=
  calcLr init { s with iteration := s.iteration + 1 }

/-- The scheduler state after `n` consecutive `on_batch_end` calls
(discarding the returned learning rates); `none` once any call raises. -/
def run (init : ℚ) (s : CircState) : ℕ → Option CircState
  | 0 => some s
  | n + 1 => (run init s n).bind fun s' => (onBatchEnd init s').map Prod.snd

end CircState

/-! ## `CosAnneal` (src/fastai/sgdr.py lines 185-206) -/

/-- State of a `CosAnneal` policy: the constructor parameters `nb` (planned
iterations of the current cycle, mutable) and `cycle_mult`, the inherited
global `iteration` counter, and the cycle counters.  `cbLog` is a ghost log
of the values passed to `on_cycle_end` (when supplied, `hasCb`). -/
structure CosState where
  nb : ℕ
  cycle_mult : ℕ
  hasCb : Bool
  iteration : ℕ
  cycle_iter : ℕ
  cycle_count : ℕ
  cbLog : List ℕ

namespace CosState

/-- `CosAnneal.calc_lr` (sgdr.py lines 194-206):

```python
if self.iteration<self.nb/20:
    self.cycle_iter += 1
    return init_lrs/100.
cos_out = np.cos(np.pi*(self.cycle_iter)/self.nb) + 1
self.cycle_iter += 1
if self.cycle_iter==self.nb:
    self.cycle_iter = 0
    self.nb *= self.cycle_mult
    if self.on_cycle_end: self.on_cycle_end(self, self.cycle_count)
    self.cycle_count += 1
return init_lrs / 2 * cos_out
```
`iteration < nb/20` over the reals is exactly `20 * iteration < nb` for
integers.  The returned value is real because of `cos`. -/
noncomputable def calcLr (init : ℝ) (s : CosState) : ℝ × CosState :=
  if 20 * s.iteration < s.nb then
    (init / 100, { s with cycle_iter := s.cycle_iter + 1 })
  else
    let cos_out : ℝ := Real.cos (Real.pi * (s.cycle_iter : ℝ) / (s.nb : ℝ)) + 1
    let s1 := { s with cycle_iter := s.cycle_iter + 1 }
    let s2 :=
      if s1.cycle_iter = s1.nb then
        { s1 with cycle_iter := 0,
                  nb := s1.nb * s1.cycle_mult,
                  cbLog := if s1.hasCb then s1.cbLog ++ [s1.cycle_count] else s1.cbLog,
                  cycle_count := s1.cycle_count + 1 }
      else s1
    (init / 2 * cos_out, s2)

/-- `CosAnneal.on_train_begin` (sgdr.py lines 190-192) plus the inherited
`LR_Updater.on_train_begin` (lines 99-103): zero the cycle counters and the
recorder's `iteration`, then push the initial learning rate with one
`calc_lr` call. -/
noncomputable def onTrainBegin (init : ℝ) (s : CosState) : ℝ × CosState :=
  calcLr init { s with iteration := 0, cycle_iter := 0, cycle_count := 0, cbLog := [] }

/-- `LR_Updater.on_batch_end` (sgdr.py lines 105-110) for `CosAnneal`:
increment the global `iteration` (line 59), then recompute the learning
rate via `calc_lr`. -/
noncomputable def onBatchEnd (init : ℝ) (s : CosState) : ℝ × CosState :=
  calcLr init { s with iteration := s.iteration + 1 }

/-- State after `n` consecutive `on_batch_end` calls. -/
noncomputable def run (init : ℝ) (s : CosState) : ℕ → CosState
  | 0 => s
  | n + 1 => (onBatchEnd init (run init s n)).2

end CosState

/-! ## `CircularLR_beta` (src/fastai/sgdr.py lines 241-279) -/

/-- Python `int(q)`: truncation toward zero. -/
def ratTrunc (q : ℚ) : ℤ := if q < 0 then ⌈q⌉ else ⌊q⌋

/-- State of a `CircularLR_beta` policy.  `cycle_nb` is computed once in the
constructor; it is an integer (`int(...)` in Python) kept as `ℤ`. -/
structure BetaState where
  nb : ℕ
  div : ℚ
  pct : ℚ
  cycle_nb : ℤ
  hasCb : Bool
  iteration : ℕ
  cycle_iter : ℕ
  cycle_count : ℕ
  cbLog : List ℕ
deriving DecidableEq, Repr

namespace BetaState

/-- `CircularLR_beta.__init__` (sgdr.py lines 242-247): stores the
parameters, computes `cycle_nb = int(nb * (1-pct/100) / 2)` and performs no
validation.  Modelled as `Option` to make the fail-fast question statable:
the result is always `some`. -/
def construct (nb : ℕ) (div pct : ℚ) (hasCb : Bool) : Option BetaState :=
  some { nb := nb, div := div, pct := pct,
         cycle_nb := ratTrunc ((nb : ℚ) * (1 - pct / 100) / 2),
         hasCb := hasCb,
         iteration := 0, cycle_iter := 0, cycle_count := 0, cbLog := [] }

/-- `CircularLR_beta.calc_lr` (sgdr.py lines 253-268):

```python
if self.cycle_iter>2 * self.cycle_nb:
    pct = (self.cycle_iter - 2*self.cycle_nb)/(self.nb - 2*self.cycle_nb)
    res = init_lrs * (1 + (pct * (1-100)/100)) / self.div
elif self.cycle_iter>self.cycle_nb:
    pct = 1 - (self.cycle_iter - self.cycle_nb)/self.cycle_nb
    res = init_lrs * (1 + pct*(self.div-1)) / self.div
else:
    pct = self.cycle_iter/self.cycle_nb
    res = init_lrs * (1 + pct*(self.div-1)) / self.div
self.cycle_iter += 1
if self.cycle_iter==self.nb:
    self.cycle_iter = 0
    if self.on_cycle_end: self.on_cycle_end(self, self.cycle_count)
    self.cycle_count += 1
return res
```
`none` models the `ZeroDivisionError` raised when the divisor of the taken
branch (`nb - 2*cycle_nb` or `cycle_nb`) or `div` is zero. -/
def calcLr (init : ℚ) (s : BetaState) : Option (ℚ × BetaState) :=
  let res? : Option ℚ :=
    if (s.cycle_iter : ℤ) > 2 * s.cycle_nb then
      if (s.nb : ℚ) - 2 * (s.cycle_nb : ℚ) = 0 then none
      else
        let pct := ((s.cycle_iter : ℚ) - 2 * (s.cycle_nb : ℚ)) / ((s.nb : ℚ) - 2 * (s.cycle_nb : ℚ))
        if s.div = 0 then none else some (init * (1 + pct * (1 - 100) / 100) / s.div)
    else if (s.cycle_iter : ℤ) > s.cycle_nb then
      if (s.cycle_nb : ℚ) = 0 then none
      else
        let pct := 1 - ((s.cycle_iter : ℚ) - (s.cycle_nb : ℚ)) / (s.cycle_nb : ℚ)
        if s.div = 0 then none else some (init * (1 + pct * (s.div - 1)) / s.div)
    else
      if (s.cycle_nb : ℚ) = 0 then none
      else
        let pct := (s.cycle_iter : ℚ) / (s.cycle_nb : ℚ)
        if s.div = 0 then none else some (init * (1 + pct * (s.div - 1)) / s.div)
  match res? with
  | none => none
  | some res =>
    let s1 := { s with cycle_iter := s.cycle_iter + 1 }
    let s2 :=
      if s1.cycle_iter = s1.nb then
        { s1 with cycle_iter := 0,
                  cbLog := if s1.hasCb then s1.cbLog ++ [s1.cycle_count] else s1.cbLog,
                  cycle_count := s1.cycle_count + 1 }
      else s1
    some (res, s2)

/-- `CircularLR_beta.on_train_begin` (sgdr.py lines 249-251) plus the
inherited `LR_Updater.on_train_begin`: zero the cycle counters and the
recorder's `iteration`, then one `calc_lr` call. -/
def onTrainBegin (init : ℚ) (s : BetaState) : Option (ℚ × BetaState) :=
  calcLr init { s with iteration := 0, cycle_iter := 0, cycle_count := 0, cbLog := [] }

/-- `LR_Updater.on_batch_end` for `CircularLR_beta`. -/
def onBatchEnd (init : ℚ) (s : BetaState) : Option (ℚ × BetaState) :=
  calcLr init { s with iteration := s.iteration + 1 }

/-- State after `n` consecutive `on_batch_end` calls. -/
def run (init : ℚ) (s : BetaState) : ℕ → Option BetaState
  | 0 => some s
  | n + 1 => (run init s n).bind fun s' => (onBatchEnd init s').map Prod.snd

end BetaState

/-! ## `LR_Finder` and `LR_Finder2` (src/fastai/sgdr.py lines 127-164)

The state combines the `LossRecorder` bookkeeping (lines 40-66: the global
`iteration` counter and the append-only `losses`, `lrs`, `iterations`
lists), the `layer_opt` learning rate the policy pushes to (`opt_lr`,
mutated by `set_lrs`), the captured baseline `init_lr` (`init_lrs`; one
representative parameter group), and the `LR_Finder` fields `linear`,
`stop_dv`, `lr_mult`, `best`.  Learning-rate values are real because the
geometric `lr_mult` is a fractional power of the ratio. -/

structure FinderState where
  iteration : ℕ
  losses : List Flt
  lrs : List ℝ
  iterations : List ℕ
  opt_lr : ℝ
  init_lr : ℝ
  lr_mult : ℝ
  linear : Bool
  stop_dv : Bool
  best : ℚ

namespace FinderState

/-- `LR_Finder.calc_lr` (sgdr.py lines 138-140):
`mult = self.lr_mult*self.iteration if self.linear else
self.lr_mult**self.iteration; return init_lrs * mult`. -/
noncomputable def calcLr (s : FinderState) : ℝ :=
  s.init_lr * (if s.linear then s.lr_mult * (s.iteration : ℝ) else s.lr_mult ^ s.iteration)

/-- `LossRecorder.on_batch_end` (sgdr.py lines 58-66) followed by
`LR_Updater.on_batch_end`'s `update_lr` (lines 105-114): increment
`iteration`, append the learning rate currently held by the optimizer, the
new iteration index and the loss (for a composite `metrics` list the first
element; the argument here is already that scalar), then recompute and push
the next learning rate.  `record_mom` is false for `LR_Finder`. -/
noncomputable def recordAndUpdate (s : FinderState) (loss : Flt) : FinderState :=
  let s1 := { s with iteration := s.iteration + 1 }
  let s2 := { s1 with lrs := s1.lrs ++ [s1.opt_lr],
                      iterations := s1.iterations ++ [s1.iteration],
                      losses := s1.losses ++ [loss] }
  { s2 with opt_lr := s2.calcLr }

/-- The divergence test of `LR_Finder.on_batch_end` (sgdr.py line 144):
`self.stop_dv and (math.isnan(loss) or loss>self.best*4)`. -/
def stopCond (s : FinderState) (loss : Flt) : Bool :=
  s.stop_dv && (loss.isnan || loss.gtQ (s.best * 4))

/-- `LR_Finder.on_batch_end` (sgdr.py lines 142-147): extract the scalar
loss, return the stop signal without touching any state if the divergence
test fires, otherwise update `best` (only when `iteration > 10`) and
delegate to the recorder/updater chain, whose `None` result is falsy. -/
noncomputable def onBatchEnd (s : FinderState) (loss : Flt) : Bool × FinderState :=
  if s.stopCond loss then (true, s)
  else
    let s1 :=
      match loss with
      | .nan => s
      | .val x => if x < s.best ∧ 10 < s.iteration then { s with best := x } else s
    (false, s1.recordAndUpdate loss)

/-- `LR_Finder2.on_batch_end` (sgdr.py lines 161-164): stop unconditionally
once `iteration` equals the budget `nb` (stored by the `LR_Finder2`
constructor), else behave as `LR_Finder`. -/
noncomputable def onBatchEnd2 (nb : ℕ) (s : FinderState) (loss : Flt) : Bool × FinderState :=
  if s.iteration = nb then (true, s) else s.onBatchEnd loss

/-- The state reached by folding the non-stopping branch of `on_batch_end`
over a loss sequence (meaningful on prefixes where no stop fires). -/
noncomputable def afterLosses (s : FinderState) (ls : List Flt) : FinderState :=
  ls.foldl (fun t l => (t.onBatchEnd l).2) s

/-- Feed a loss sequence to `LR_Finder.on_batch_end` batch by batch,
stopping at the first `True`; returns the 0-based index of the batch that
signalled stop, if any.  This is how the training loop consumes the stop
signal. -/
noncomputable def firstStop (s : FinderState) : List Flt → Option ℕ
  | [] => none
  | l :: ls =>
    if (s.onBatchEnd l).1 then some 0
    else (firstStop (s.onBatchEnd l).2 ls).map (· + 1)

/-- `LR_Finder.__init__` (sgdr.py lines 128-132) followed by
`on_train_begin` (lines 134-136): capture the baseline, precompute
`lr_mult` from `ratio = end_lr/layer_opt.lr`, reset the recorder and set
`best = 1e9`; the trailing `update_lr` of `on_train_begin` pushes
`calc_lr` at iteration 0.  (`layer_opt.lr` is the baseline of the
representative group and is assumed nonzero by every claim using this.) -/
noncomputable def mkFinder (baseline end_lr : ℝ) (nb : ℕ) (linear : Bool) : FinderState :=
  let ratio := end_lr / baseline
  let s : FinderState :=
    { iteration := 0, losses := [], lrs := [], iterations := [],
      opt_lr := baseline, init_lr := baseline,
      lr_mult := if linear then ratio / (nb : ℝ) else ratio ^ ((1 : ℝ) / (nb : ℝ)),
      linear := linear, stop_dv := true, best := 10 ^ 9 }
  { s with opt_lr := s.calcLr }

end FinderState

/-! ## Theorems -/

section SmoothCurve

/-- For a rational `beta` other than `±1`, no power `beta ^ n` with `n ≥ 1`
equals 1, so no denominator of `smooth_curve` vanishes. -/
lemma one_sub_pow_ne_zero {beta : ℚ} (h1 : beta ≠ 1) (h2 : beta ≠ -1)
    {n : ℕ} (hn : n ≠ 0) : 1 - beta ^ n ≠ 0 := by
  intro h
  have hpow : beta ^ n = 1 := by linarith
  have habs : |beta| ^ n = 1 := by
    rw [← abs_pow, hpow, abs_one]
  rcases lt_trichotomy |beta| 1 with hlt | heq | hgt
  · have := pow_lt_one₀ (abs_nonneg beta) hlt hn
    rw [habs] at this; exact lt_irrefl 1 this
  · rcases (abs_eq (by norm_num : (0:ℚ) ≤ 1)).mp heq with h | h
    · exact h1 h
    · exact h2 h
  · have := one_lt_pow₀ hgt hn
    rw [habs] at this; exact lt_irrefl 1 this

/-- Unfolding of the `smooth_curve` loop: when no denominator vanishes, the
result is total, has the input's length, and its `j`-th element is the
running average over the first `j+1` inputs divided by the bias
correction. -/
lemma smoothGo_spec (beta : ℚ) (hb : ∀ n : ℕ, n ≠ 0 → 1 - beta ^ n ≠ 0) :
    ∀ (vals : List ℚ) (avg : ℚ) (i : ℕ),
      ∃ out, smoothGo beta avg i vals = some out ∧
        out.length = vals.length ∧
        ∀ j (h : j < out.length),
          out.get ⟨j, h⟩ =
            emaFrom beta avg (vals.take (j + 1)) / (1 - beta ^ (i + j + 1)) := by
  intro vals
  induction vals with
  | nil =>
    intro avg i
    exact ⟨[], rfl, rfl, fun j h => absurd h (by simp)⟩
  | cons v vs ih =>
    intro avg i
    obtain ⟨out', hout', hlen', hget'⟩ := ih (beta * avg + (1 - beta) * v) (i + 1)
    refine ⟨(beta * avg + (1 - beta) * v) / (1 - beta ^ (i + 1)) :: out', ?_, ?_, ?_⟩
    · simp only [smoothGo, hb (i + 1) (Nat.succ_ne_zero i), if_false, hout', Option.map_some']
    · simpa using hlen'
    · intro j h
      cases j with
      | zero =>
        simp [emaFrom]
      | succ j =>
        have hj : j < out'.length := by simpa using Nat.lt_of_succ_lt_succ h
        have := hget' j hj
        simp only [List.get_cons_succ, this, List.take_succ_cons]
        have he : i + 1 + j + 1 = i + (j + 1) + 1 := by omega
        rw [he]
        rfl

/-- C9: `smooth_curve(values, beta)` returns, for every input sequence (and
any smoothing parameter `beta ≠ ±1`, so that Python's division never
raises), a sequence of the same length whose `i`-th element is the
bias-corrected exponential moving average
`emaAvg(values[:i+1]) / (1 - beta^(i+1))`; it is a pure function of its
input.  Concretely, `smooth_curve([1,1,1,1], 1/2)` is `[1,1,1,1]`, whose
first element is exactly 1. -/
theorem smooth_curve_spec :
    (∀ (vals : List ℚ) (beta : ℚ), beta ≠ 1 → beta ≠ -1 →
      ∃ out, smooth_curve vals beta = some out ∧
        out.length = vals.length ∧
        ∀ i (h : i < out.length),
          out.get ⟨i, h⟩ = emaAvg beta (vals.take (i + 1)) / (1 - beta ^ (i + 1)))
    ∧ smooth_curve [1, 1, 1, 1] (1/2) = some [1, 1, 1, 1] := by
  constructor
  · intro vals beta h1 h2
    obtain ⟨out, hout, hlen, hget⟩ :=
      smoothGo_spec beta (fun n hn => one_sub_pow_ne_zero h1 h2 hn) vals 0 0
    refine ⟨out, hout, hlen, ?_⟩
    intro i h
    simpa [emaAvg] using hget i h
  · norm_num [smooth_curve, smoothGo]

/-- Witness for C9 at a concrete input. -/
theorem smooth_curve_spec_witness :
    ∃ out, smooth_curve [3, 5] (1/2) = some out ∧
      out.length = ([3, 5] : List ℚ).length ∧
      ∀ i (h : i < out.length),
        out.get ⟨i, h⟩ = emaAvg (1/2) (([3, 5] : List ℚ).take (i + 1)) / (1 - (1/2 : ℚ) ^ (i + 1)) :=
  smooth_curve_spec.1 [3, 5] (1/2) (by norm_num) (by norm_num)

end SmoothCurve

section WeightDecayTable

/-- Counterexample to C3 as stated: for `cycle_len=2, cycle_mult=2,
n_cycles=3` the precomputed `epoch_to_num_cycles` table is
`{0:2,1:2,2:4,3:4,4:4,5:4,6:8,…,13:8}`, which covers `2+4+8 = 14` epochs,
not 13. -/
theorem epochToNumCycles_table_counterexample :
    epochToNumCycles 2 2 3 = [2, 2, 4, 4, 4, 4, 8, 8, 8, 8, 8, 8, 8, 8] ∧
      (epochToNumCycles 2 2 3).length ≠ 13 := by
  decide

/-- C3 (amended): `WeightDecaySchedule` constructed with `cycle_len=2,
cycle_mult=2, n_cycles=3` precomputes the epoch-to-cycle-length mapping
`{0:2, 1:2, 2:4, 3:4, 4:4, 5:4, 6:8, 7:8, …, 13:8}`, covering 14 epochs in
total (`2 + 4 + 8`), with cycle lengths growing multiplicatively per
completed cycle. -/
theorem epochToNumCycles_table :
    epochToNumCycles 2 2 3 = [2, 2, 4, 4, 4, 4, 8, 8, 8, 8, 8, 8, 8, 8] ∧
      (epochToNumCycles 2 2 3).length = 14 := by
  decide

end WeightDecayTable

section CyclicCounters

namespace CosState

/-- One `CosAnneal` batch step preserves the cycle-state invariant
`cycle_iter < nb ∧ cycle_iter ≤ iteration + 1 ∧ 2 ≤ nb` and never
decreases `cycle_count` (for `cycle_mult ≥ 1`). -/
lemma step_inv (init : ℝ) (s : CosState) (hm : 1 ≤ s.cycle_mult)
    (h1 : s.cycle_iter < s.nb) (h2 : s.cycle_iter ≤ s.iteration + 1) (h3 : 2 ≤ s.nb) :
    (onBatchEnd init s).2.cycle_iter < (onBatchEnd init s).2.nb ∧
    (onBatchEnd init s).2.cycle_iter ≤ (onBatchEnd init s).2.iteration + 1 ∧
    2 ≤ (onBatchEnd init s).2.nb ∧
    s.cycle_count ≤ (onBatchEnd init s).2.cycle_count := by
  by_cases hw : 20 * (s.iteration + 1) < s.nb
  · simp [onBatchEnd, calcLr, hw]
    omega
  · by_cases hb : s.cycle_iter + 1 = s.nb
    · have hnm : s.nb * 1 ≤ s.nb * s.cycle_mult := Nat.mul_le_mul_left _ hm
      simp [onBatchEnd, calcLr, hw, hb]
      omega
    · simp [onBatchEnd, calcLr, hw, hb]
      omega

/-- Trajectory of a `CosAnneal` first cycle: `on_train_begin` already runs
one `calc_lr` (incrementing `cycle_iter` to 1), so after `j` further
`on_batch_end` calls (`j + 1 < nb`) the cycle position is `j + 1`. -/
lemma cosTraj (init : ℝ) (s : CosState) (h3 : 2 ≤ s.nb) :
    ∀ j, j + 1 < s.nb →
      run init (onTrainBegin init s).2 j =
        { s with iteration := j, cycle_iter := j + 1, cycle_count := 0, cbLog := [] } := by
  intro j
  induction j with
  | zero =>
    intro hj
    have h0 : 0 < s.nb := by omega
    simp [run, onTrainBegin, calcLr, h0]
  | succ j ih =>
    intro hj
    have t := ih (by omega)
    show (onBatchEnd init (run init (onTrainBegin init s).2 j)).2 = _
    rw [t]
    by_cases hw : 20 * (j + 1) < s.nb
    · simp [onBatchEnd, calcLr, hw]
    · have hb : ¬ (j + 1 + 1 = s.nb) := by omega
      simp [onBatchEnd, calcLr, hw, hb]

/-- The first `CosAnneal` cycle completes after `nb - 1` batch-end calls
from a fresh train-begin: `cycle_iter` returns to 0, `nb` grows by
`cycle_mult`, `cycle_count` becomes 1 and the callback (if any) received
the pre-increment count 0. -/
lemma cosFirstCycle (init : ℝ) (s : CosState) (h3 : 2 ≤ s.nb) :
    run init (onTrainBegin init s).2 (s.nb - 1) =
      { s with iteration := s.nb - 1, cycle_iter := 0, nb := s.nb * s.cycle_mult,
               cycle_count := 1, cbLog := if s.hasCb then [0] else [] } := by
  have hsplit : s.nb - 1 = (s.nb - 2) + 1 := by omega
  rw [hsplit]
  show (onBatchEnd init (run init (onTrainBegin init s).2 (s.nb - 2))).2 = _
  rw [cosTraj init s h3 (s.nb - 2) (by omega)]
  have hw : ¬ (20 * ((s.nb - 2) + 1) < s.nb) := by omega
  have hb : (s.nb - 2) + 1 + 1 = s.nb := by omega
  simp [onBatchEnd, calcLr, hw, hb]

end CosState

namespace CircState

/-- The state component of a successful `CircularLR.calc_lr` call, under
hypotheses making every divisor nonzero. -/
lemma circCalcLrSnd (init : ℚ) (s : CircState) (hcd : s.cut_div ≠ 0)
    (hcp : 0 < s.nb / s.cut_div) (hlt : s.nb / s.cut_div < s.nb) (hdiv : s.div ≠ 0) :
    (calcLr init s).map Prod.snd = some (
      if s.cycle_iter + 1 = s.nb then
        { s with cycle_iter := 0,
                 cbLog := if s.hasCb then s.cbLog ++ [s.cycle_count] else s.cbLog,
                 cycle_count := s.cycle_count + 1 }
      else { s with cycle_iter := s.cycle_iter + 1 }) := by
  have hcpq : ((s.nb / s.cut_div : ℕ) : ℚ) ≠ 0 := by
    exact_mod_cast hcp.ne'
  have hsub : ((s.nb : ℚ) - ((s.nb / s.cut_div : ℕ) : ℚ)) ≠ 0 := by
    have h1 : ((s.nb / s.cut_div : ℕ) : ℚ) < (s.nb : ℚ) := by exact_mod_cast hlt
    linarith
  by_cases hbr : s.nb / s.cut_div < s.cycle_iter
  · simp [calcLr, hcd, hbr, hsub, hdiv]
  · simp [calcLr, hcd, hbr, hcpq, hdiv]

/-- Whenever `CircularLR.calc_lr` succeeds (no `ZeroDivisionError`), the new
state is: increment `cycle_iter`; on hitting `nb`, reset it to 0, log the
pre-increment `cycle_count` to the callback and increment `cycle_count`. -/
lemma circCalcLrSndShape (init : ℚ) (s : CircState) {v : ℚ} {s' : CircState}
    (h : calcLr init s = some (v, s')) :
    s' = (if s.cycle_iter + 1 = s.nb then
        { s with cycle_iter := 0,
                 cbLog := if s.hasCb then s.cbLog ++ [s.cycle_count] else s.cbLog,
                 cycle_count := s.cycle_count + 1 }
      else { s with cycle_iter := s.cycle_iter + 1 }) := by
  by_cases hcd : s.cut_div = 0
  · simp [calcLr, hcd] at h
  · by_cases hbr : s.nb / s.cut_div < s.cycle_iter
    · by_cases hs1 : ((s.nb : ℚ) - ((s.nb / s.cut_div : ℕ) : ℚ)) = 0
      · simp [calcLr, hcd, hbr, hs1] at h
      · by_cases hdiv : s.div = 0
        · simp [calcLr, hcd, hbr, hs1, hdiv] at h
        · simp [calcLr, hcd, hbr, hs1, hdiv] at h
          exact h.2.symm
    · by_cases hs2 : ((s.nb / s.cut_div : ℕ) : ℚ) = 0
      · simp [calcLr, hcd, hbr, hs2] at h
      · by_cases hdiv : s.div = 0
        · simp [calcLr, hcd, hbr, hs2, hdiv] at h
        · simp [calcLr, hcd, hbr, hs2, hdiv] at h
          exact h.2.symm

/-- Trajectory of a `CircularLR` first cycle (cf. `CosState.traj`). -/
lemma circTraj (init : ℚ) (s : CircState) (hcd : s.cut_div ≠ 0)
    (hcp : 0 < s.nb / s.cut_div) (hlt : s.nb / s.cut_div < s.nb) (hdiv : s.div ≠ 0) :
    ∀ j, j + 1 < s.nb →
      ((onTrainBegin init s).map Prod.snd).bind (fun b => run init b j) =
        some { s with iteration := j, cycle_iter := j + 1, cycle_count := 0, cbLog := [] } := by
  intro j
  induction j with
  | zero =>
    intro hj
    have hb : ¬ ((0:ℕ) + 1 = s.nb) := by omega
    have h0 := circCalcLrSnd init
      { s with iteration := 0, cycle_iter := 0, cycle_count := 0, cbLog := [] }
      hcd hcp hlt hdiv
    simp [hb] at h0
    simp [run, onTrainBegin, h0]
  | succ j ih =>
    intro hj
    have t := ih (by omega)
    have hassoc :
        ((onTrainBegin init s).map Prod.snd).bind (fun b => run init b (j + 1)) =
          (((onTrainBegin init s).map Prod.snd).bind (fun b => run init b j)).bind
            (fun s' => (onBatchEnd init s').map Prod.snd) := by
      rw [Option.bind_assoc]
      rfl
    rw [hassoc, t]
    have hb : ¬ (j + 1 + 1 = s.nb) := by omega
    have h1 := circCalcLrSnd init
      { s with iteration := j + 1, cycle_iter := j + 1, cycle_count := 0, cbLog := [] }
      hcd hcp hlt hdiv
    simp [hb] at h1
    simp [onBatchEnd, h1]

/-- The first `CircularLR` cycle completes after `nb - 1` batch-end calls
from a fresh train-begin. -/
lemma circFirstCycle (init : ℚ) (s : CircState) (hcd : s.cut_div ≠ 0)
    (hcp : 0 < s.nb / s.cut_div) (hlt : s.nb / s.cut_div < s.nb) (hdiv : s.div ≠ 0)
    (h2 : 2 ≤ s.nb) :
    ((onTrainBegin init s).map Prod.snd).bind (fun b => run init b (s.nb - 1)) =
      some { s with iteration := s.nb - 1, cycle_iter := 0,
                    cbLog := if s.hasCb then [0] else [], cycle_count := 1 } := by
  have hsplit : s.nb - 1 = (s.nb - 2) + 1 := by omega
  rw [hsplit]
  have hassoc :
      ((onTrainBegin init s).map Prod.snd).bind (fun b => run init b ((s.nb - 2) + 1)) =
        (((onTrainBegin init s).map Prod.snd).bind (fun b => run init b (s.nb - 2))).bind
          (fun s' => (onBatchEnd init s').map Prod.snd) := by
    rw [Option.bind_assoc]
    rfl
  rw [hassoc, circTraj init s hcd hcp hlt hdiv (s.nb - 2) (by omega)]
  have hb : (s.nb - 2) + 1 + 1 = s.nb := by omega
  have h1 := circCalcLrSnd init
    { s with iteration := s.nb - 2 + 1, cycle_iter := s.nb - 2 + 1, cycle_count := 0, cbLog := [] }
    hcd hcp hlt hdiv
  simp [hb] at h1
  simp [onBatchEnd, hsplit, h1]

end CircState

namespace BetaState

/-- The state component of a successful `CircularLR_beta.calc_lr` call,
under hypotheses making every divisor nonzero. -/
lemma betaCalcLrSnd (init : ℚ) (s : BetaState) (hcnb : s.cycle_nb ≠ 0)
    (hnb2 : (s.nb : ℤ) ≠ 2 * s.cycle_nb) (hdiv : s.div ≠ 0) :
    (calcLr init s).map Prod.snd = some (
      if s.cycle_iter + 1 = s.nb then
        { s with cycle_iter := 0,
                 cbLog := if s.hasCb then s.cbLog ++ [s.cycle_count] else s.cbLog,
                 cycle_count := s.cycle_count + 1 }
      else { s with cycle_iter := s.cycle_iter + 1 }) := by
  have hq1 : ((s.cycle_nb : ℤ) : ℚ) ≠ 0 := by exact_mod_cast hcnb
  have hq2 : (s.nb : ℚ) - 2 * ((s.cycle_nb : ℤ) : ℚ) ≠ 0 := by
    intro h
    apply hnb2
    have : ((s.nb : ℤ) : ℚ) = ((2 * s.cycle_nb : ℤ) : ℚ) := by push_cast; linarith
    exact_mod_cast this
  by_cases hb1 : (s.cycle_iter : ℤ) > 2 * s.cycle_nb
  · simp [calcLr, hb1, hq2, hdiv]
  · by_cases hb2 : (s.cycle_iter : ℤ) > s.cycle_nb
    · simp [calcLr, hb1, hb2, hq1, hdiv]
    · simp [calcLr, hb1, hb2, hq1, hdiv]

/-- Whenever `CircularLR_beta.calc_lr` succeeds, the new state is:
increment `cycle_iter`; on hitting `nb`, reset it, log the pre-increment
`cycle_count` and increment `cycle_count`. -/
lemma betaCalcLrSndShape (init : ℚ) (s : BetaState) {v : ℚ} {s' : BetaState}
    (h : calcLr init s = some (v, s')) :
    s' = (if s.cycle_iter + 1 = s.nb then
        { s with cycle_iter := 0,
                 cbLog := if s.hasCb then s.cbLog ++ [s.cycle_count] else s.cbLog,
                 cycle_count := s.cycle_count + 1 }
      else { s with cycle_iter := s.cycle_iter + 1 }) := by
  by_cases hb1 : (s.cycle_iter : ℤ) > 2 * s.cycle_nb
  · by_cases hs1 : ((s.nb : ℚ) - 2 * ((s.cycle_nb : ℤ) : ℚ)) = 0
    · simp [calcLr, hb1, hs1] at h
    · by_cases hdiv : s.div = 0
      · simp [calcLr, hb1, hs1, hdiv] at h
      · simp [calcLr, hb1, hs1, hdiv] at h
        exact h.2.symm
  · by_cases hb2 : (s.cycle_iter : ℤ) > s.cycle_nb <;>
      by_cases hs2 : ((s.cycle_nb : ℤ) : ℚ) = 0 <;>
      by_cases hdiv : s.div = 0 <;>
      simp [calcLr, hb1, hb2, hs2, hdiv] at h <;>
      exact h.2.symm

/-- Trajectory of a `CircularLR_beta` first cycle. -/
lemma betaTraj (init : ℚ) (s : BetaState) (hcnb : s.cycle_nb ≠ 0)
    (hnb2 : (s.nb : ℤ) ≠ 2 * s.cycle_nb) (hdiv : s.div ≠ 0) :
    ∀ j, j + 1 < s.nb →
      ((onTrainBegin init s).map Prod.snd).bind (fun b => run init b j) =
        some { s with iteration := j, cycle_iter := j + 1, cycle_count := 0, cbLog := [] } := by
  intro j
  induction j with
  | zero =>
    intro hj
    have hb : ¬ ((0:ℕ) + 1 = s.nb) := by omega
    have h0 := betaCalcLrSnd init
      { s with iteration := 0, cycle_iter := 0, cycle_count := 0, cbLog := [] }
      hcnb hnb2 hdiv
    simp [hb] at h0
    simp [run, onTrainBegin, h0]
  | succ j ih =>
    intro hj
    have t := ih (by omega)
    have hassoc :
        ((onTrainBegin init s).map Prod.snd).bind (fun b => run init b (j + 1)) =
          (((onTrainBegin init s).map Prod.snd).bind (fun b => run init b j)).bind
            (fun s' => (onBatchEnd init s').map Prod.snd) := by
      rw [Option.bind_assoc]
      rfl
    rw [hassoc, t]
    have hb : ¬ (j + 1 + 1 = s.nb) := by omega
    have h1 := betaCalcLrSnd init
      { s with iteration := j + 1, cycle_iter := j + 1, cycle_count := 0, cbLog := [] }
      hcnb hnb2 hdiv
    simp [hb] at h1
    simp [onBatchEnd, h1]

/-- The first `CircularLR_beta` cycle completes after `nb - 1` batch-end
calls from a fresh train-begin. -/
lemma betaFirstCycle (init : ℚ) (s : BetaState) (hcnb : s.cycle_nb ≠ 0)
    (hnb2 : (s.nb : ℤ) ≠ 2 * s.cycle_nb) (hdiv : s.div ≠ 0) (h2 : 2 ≤ s.nb) :
    ((onTrainBegin init s).map Prod.snd).bind (fun b => run init b (s.nb - 1)) =
      some { s with iteration := s.nb - 1, cycle_iter := 0,
                    cbLog := if s.hasCb then [0] else [], cycle_count := 1 } := by
  have hsplit : s.nb - 1 = (s.nb - 2) + 1 := by omega
  rw [hsplit]
  have hassoc :
      ((onTrainBegin init s).map Prod.snd).bind (fun b => run init b ((s.nb - 2) + 1)) =
        (((onTrainBegin init s).map Prod.snd).bind (fun b => run init b (s.nb - 2))).bind
          (fun s' => (onBatchEnd init s').map Prod.snd) := by
    rw [Option.bind_assoc]
    rfl
  rw [hassoc, betaTraj init s hcnb hnb2 hdiv (s.nb - 2) (by omega)]
  have hb : (s.nb - 2) + 1 + 1 = s.nb := by omega
  have h1 := betaCalcLrSnd init
    { s with iteration := s.nb - 2 + 1, cycle_iter := s.nb - 2 + 1, cycle_count := 0, cbLog := [] }
    hcnb hnb2 hdiv
  simp [hb] at h1
  simp [onBatchEnd, hsplit, h1]

end BetaState

end CyclicCounters

/-- Counterexample to C1 as stated.  First: for `CircularLR` with
`nb = 4, div = 4, cut_div = 2`, after a fresh `on_train_begin` followed by
exactly `cycle_length = 4` `on_batch_end` calls, `cycle_iter` is 1, not 0
(the cycle boundary was crossed one call earlier, because `on_train_begin`
itself already runs one `calc_lr`).  Second: for `CosAnneal` with `nb = 1`,
the batch-end call after a fresh `on_train_begin` performs the boundary
check yet leaves `cycle_iter = 2` with `nb = 1`, outside `[0, nb)`. -/
theorem cyclic_cycle_reset_counterexample :
    (((CircState.onTrainBegin 1
        { nb := 4, div := 4, cut_div := 2, hasCb := false, iteration := 0,
          cycle_iter := 0, cycle_count := 0, cbLog := [] }).map Prod.snd).bind
        (fun b => CircState.run 1 b 4)).map (fun s => (s.cycle_iter, s.cycle_count)) =
      some (1, 1) ∧
    (1 : ℕ) ≠ 0 ∧
    ((CosState.onBatchEnd 1 (CosState.onTrainBegin 1
        { nb := 1, cycle_mult := 1, hasCb := false, iteration := 0,
          cycle_iter := 0, cycle_count := 0, cbLog := [] }).2).2.cycle_iter = 2 ∧
     (CosState.onBatchEnd 1 (CosState.onTrainBegin 1
        { nb := 1, cycle_mult := 1, hasCb := false, iteration := 0,
          cycle_iter := 0, cycle_count := 0, cbLog := [] }).2).2.nb = 1 ∧
     ¬ (2 : ℕ) < 1) := by
  refine ⟨?_, by decide, ?_, ?_, by decide⟩
  · norm_num [CircState.onTrainBegin, CircState.run, CircState.onBatchEnd, CircState.calcLr]
  · norm_num [CosState.onTrainBegin, CosState.onBatchEnd, CosState.calcLr]
  · norm_num [CosState.onTrainBegin, CosState.onBatchEnd, CosState.calcLr]

/-- C1 (amended): for every cyclic policy, after `on_train_begin` (which
itself already performs one `calc_lr` call, advancing `cycle_iter` to 1)
`cycle_iter` stays in `[0, nb)` and `cycle_count` is non-decreasing —
for `CosAnneal` under `2 ≤ nb` and `1 ≤ cycle_mult`, and for
`CircularLR` / `CircularLR_beta` on every `calc_lr` call that does not
raise; and the first cycle completes after exactly `cycle_length - 1`
(not `cycle_length`) `on_batch_end` calls following a fresh
`on_train_begin`, at which point `cycle_iter` is back to 0 and
`cycle_count` has increased by exactly 1. -/
theorem cyclic_counters_spec :
    (∀ (init : ℝ) (s : CosState), 1 ≤ s.cycle_mult → 2 ≤ s.nb →
      s.cycle_iter < s.nb → s.cycle_iter ≤ s.iteration + 1 →
        (CosState.onBatchEnd init s).2.cycle_iter < (CosState.onBatchEnd init s).2.nb ∧
        (CosState.onBatchEnd init s).2.cycle_iter ≤ (CosState.onBatchEnd init s).2.iteration + 1 ∧
        2 ≤ (CosState.onBatchEnd init s).2.nb ∧
        s.cycle_count ≤ (CosState.onBatchEnd init s).2.cycle_count) ∧
    (∀ (init : ℝ) (s : CosState), 2 ≤ s.nb →
      (CosState.onTrainBegin init s).2.cycle_iter < (CosState.onTrainBegin init s).2.nb ∧
      (CosState.onTrainBegin init s).2.cycle_iter ≤ (CosState.onTrainBegin init s).2.iteration + 1 ∧
      (CosState.onTrainBegin init s).2.cycle_count = 0) ∧
    (∀ (init : ℝ) (s : CosState), 2 ≤ s.nb →
      (CosState.run init (CosState.onTrainBegin init s).2 (s.nb - 1)).cycle_iter = 0 ∧
      (CosState.run init (CosState.onTrainBegin init s).2 (s.nb - 1)).cycle_count = 1) ∧
    (∀ (init : ℚ) (s : CircState) (v : ℚ) (s' : CircState),
      CircState.calcLr init s = some (v, s') → s.cycle_iter < s.nb →
        s'.cycle_iter < s'.nb ∧ s.cycle_count ≤ s'.cycle_count) ∧
    (∀ (init : ℚ) (s : CircState), s.cut_div ≠ 0 → 0 < s.nb / s.cut_div →
      s.nb / s.cut_div < s.nb → s.div ≠ 0 → 2 ≤ s.nb →
      ((CircState.onTrainBegin init s).map Prod.snd).bind
          (fun b => CircState.run init b (s.nb - 1)) =
        some { s with iteration := s.nb - 1, cycle_iter := 0,
                      cbLog := if s.hasCb then [0] else [], cycle_count := 1 }) ∧
    (∀ (init : ℚ) (s : BetaState) (v : ℚ) (s' : BetaState),
      BetaState.calcLr init s = some (v, s') → s.cycle_iter < s.nb →
        s'.cycle_iter < s'.nb ∧ s.cycle_count ≤ s'.cycle_count) ∧
    (∀ (init : ℚ) (s : BetaState), s.cycle_nb ≠ 0 → (s.nb : ℤ) ≠ 2 * s.cycle_nb →
      s.div ≠ 0 → 2 ≤ s.nb →
      ((BetaState.onTrainBegin init s).map Prod.snd).bind
          (fun b => BetaState.run init b (s.nb - 1)) =
        some { s with iteration := s.nb - 1, cycle_iter := 0,
                      cbLog := if s.hasCb then [0] else [], cycle_count := 1 }) := by
  refine ⟨?_, ?_, ?_, ?_, ?_, ?_, ?_⟩
  · intro init s hm h3 h1 h2
    exact CosState.step_inv init s hm h1 h2 h3
  · intro init s h3
    have h0 : 0 < s.nb := by omega
    simp [CosState.onTrainBegin, CosState.calcLr, h0]
    omega
  · intro init s h3
    rw [CosState.cosFirstCycle init s h3]
    exact ⟨rfl, rfl⟩
  · intro init s v s' h hci
    have hs := CircState.circCalcLrSndShape init s h
    by_cases hb : s.cycle_iter + 1 = s.nb
    · rw [hs]
      simp [hb]
      omega
    · rw [hs]
      simp [hb]
      omega
  · intro init s hcd hcp hlt hdiv h2
    exact CircState.circFirstCycle init s hcd hcp hlt hdiv h2
  · intro init s v s' h hci
    have hs := BetaState.betaCalcLrSndShape init s h
    by_cases hb : s.cycle_iter + 1 = s.nb
    · rw [hs]
      simp [hb]
      omega
    · rw [hs]
      simp [hb]
      omega
  · intro init s hcnb hnb2 hdiv h2
    exact BetaState.betaFirstCycle init s hcnb hnb2 hdiv h2

/-- Witness for C1 (amended) at concrete inputs for each policy. -/
theorem cyclic_counters_spec_witness :
    ((CosState.onBatchEnd 1
        { nb := 4, cycle_mult := 1, hasCb := false, iteration := 0,
          cycle_iter := 1, cycle_count := 0, cbLog := [] }).2.cycle_iter <
      (CosState.onBatchEnd 1
        { nb := 4, cycle_mult := 1, hasCb := false, iteration := 0,
          cycle_iter := 1, cycle_count := 0, cbLog := [] }).2.nb) ∧
    ((CosState.run 1 (CosState.onTrainBegin 1
        { nb := 4, cycle_mult := 1, hasCb := false, iteration := 0,
          cycle_iter := 0, cycle_count := 0, cbLog := [] }).2 3).cycle_iter = 0 ∧
     (CosState.run 1 (CosState.onTrainBegin 1
        { nb := 4, cycle_mult := 1, hasCb := false, iteration := 0,
          cycle_iter := 0, cycle_count := 0, cbLog := [] }).2 3).cycle_count = 1) ∧
    (((CircState.onTrainBegin 1
        { nb := 4, div := 4, cut_div := 2, hasCb := false, iteration := 0,
          cycle_iter := 0, cycle_count := 0, cbLog := [] }).map Prod.snd).bind
        (fun b => CircState.run 1 b 3) =
      some { nb := 4, div := 4, cut_div := 2, hasCb := false, iteration := 3,
             cycle_iter := 0, cycle_count := 1, cbLog := [] }) ∧
    (((BetaState.onTrainBegin 1
        { nb := 10, div := 10, pct := 10, cycle_nb := 4, hasCb := false, iteration := 0,
          cycle_iter := 0, cycle_count := 0, cbLog := [] }).map Prod.snd).bind
        (fun b => BetaState.run 1 b 9) =
      some { nb := 10, div := 10, pct := 10, cycle_nb := 4, hasCb := false, iteration := 9,
             cycle_iter := 0, cycle_count := 1, cbLog := [] }) := by
  refine ⟨?_, ?_, ?_, ?_⟩
  · exact (cyclic_counters_spec.1 1
      { nb := 4, cycle_mult := 1, hasCb := false, iteration := 0,
        cycle_iter := 1, cycle_count := 0, cbLog := [] }
      (by decide) (by decide) (by decide) (by decide)).1
  · have h := cyclic_counters_spec.2.2.1 1
      { nb := 4, cycle_mult := 1, hasCb := false, iteration := 0,
        cycle_iter := 0, cycle_count := 0, cbLog := [] } (by decide)
    simpa using h
  · have h := cyclic_counters_spec.2.2.2.2.1 1
      { nb := 4, div := 4, cut_div := 2, hasCb := false, iteration := 0,
        cycle_iter := 0, cycle_count := 0, cbLog := [] }
      (by decide) (by decide) (by decide) (by norm_num) (by decide)
    simpa using h
  · have h := cyclic_counters_spec.2.2.2.2.2.2 1
      { nb := 10, div := 10, pct := 10, cycle_nb := 4, hasCb := false, iteration := 0,
        cycle_iter := 0, cycle_count := 0, cbLog := [] }
      (by decide) (by decide) (by norm_num) (by decide)
    simpa using h

section TriangularShape

namespace CircState

/-- Value of `CircularLR.calc_lr` in the rising phase
(`cycle_iter ≤ cut_pt`): affine interpolation from `init/div` at 0 to
`init` at `cut_pt`. -/
lemma calcLr_fst_rise (init : ℚ) (s : CircState) (hcd : s.cut_div ≠ 0)
    (hcp : 0 < s.nb / s.cut_div) (hdiv : s.div ≠ 0)
    (hle : s.cycle_iter ≤ s.nb / s.cut_div) :
    (calcLr init s).map Prod.fst =
      some (init / s.div +
        ((s.cycle_iter : ℚ) / ((s.nb / s.cut_div : ℕ) : ℚ)) * (init - init / s.div)) := by
  have hcpq : ((s.nb / s.cut_div : ℕ) : ℚ) ≠ 0 := by exact_mod_cast hcp.ne'
  have hbr : ¬ (s.nb / s.cut_div < s.cycle_iter) := by omega
  simp [calcLr, hcd, hbr, hcpq, hdiv]
  field_simp
  ring

/-- Value of `CircularLR.calc_lr` in the falling phase
(`cut_pt < cycle_iter`): affine interpolation from `init` at `cut_pt` back
toward `init/div` at `nb`. -/
lemma calcLr_fst_fall (init : ℚ) (s : CircState) (hcd : s.cut_div ≠ 0)
    (hlt : s.nb / s.cut_div < s.nb) (hdiv : s.div ≠ 0)
    (hbr : s.nb / s.cut_div < s.cycle_iter) :
    (calcLr init s).map Prod.fst =
      some (init -
        (((s.cycle_iter : ℚ) - ((s.nb / s.cut_div : ℕ) : ℚ)) /
          ((s.nb : ℚ) - ((s.nb / s.cut_div : ℕ) : ℚ))) * (init - init / s.div)) := by
  have hsub : ((s.nb : ℚ) - ((s.nb / s.cut_div : ℕ) : ℚ)) ≠ 0 := by
    have h1 : ((s.nb / s.cut_div : ℕ) : ℚ) < (s.nb : ℚ) := by exact_mod_cast hlt
    linarith
  simp [calcLr, hcd, hbr, hsub, hdiv]
  field_simp
  ring

end CircState

/-- C6: `CircularLR.calc_lr` with `cut_pt = nb // cut_div` rises linearly
from `baseline/div` at `cycle_iter = 0` to `baseline` at
`cycle_iter = cut_pt` (affine in `cycle_iter` with those endpoints), then
falls linearly back toward `baseline/div` over `(cut_pt, nb)` (affine with
value `baseline` at `cut_pt` and `baseline/div` at `nb`); concretely with
`baseline = 1, nb = 100, div = 4, cut_div = 10` the value at
`cycle_iter = 0` is `0.25` and at `cycle_iter = 10` is `1`. -/
theorem circularLR_shape_spec :
    (∀ (init : ℚ) (s : CircState), s.cut_div ≠ 0 → 0 < s.nb / s.cut_div → s.div ≠ 0 →
      s.cycle_iter ≤ s.nb / s.cut_div →
      (CircState.calcLr init s).map Prod.fst =
        some (init / s.div +
          ((s.cycle_iter : ℚ) / ((s.nb / s.cut_div : ℕ) : ℚ)) * (init - init / s.div))) ∧
    (∀ (init : ℚ) (s : CircState), s.cut_div ≠ 0 → s.nb / s.cut_div < s.nb → s.div ≠ 0 →
      s.nb / s.cut_div < s.cycle_iter →
      (CircState.calcLr init s).map Prod.fst =
        some (init -
          (((s.cycle_iter : ℚ) - ((s.nb / s.cut_div : ℕ) : ℚ)) /
            ((s.nb : ℚ) - ((s.nb / s.cut_div : ℕ) : ℚ))) * (init - init / s.div))) ∧
    (CircState.calcLr 1
      { nb := 100, div := 4, cut_div := 10, hasCb := false, iteration := 0,
        cycle_iter := 0, cycle_count := 0, cbLog := [] }).map Prod.fst = some (1/4) ∧
    (CircState.calcLr 1
      { nb := 100, div := 4, cut_div := 10, hasCb := false, iteration := 10,
        cycle_iter := 10, cycle_count := 0, cbLog := [] }).map Prod.fst = some 1 := by
  refine ⟨?_, ?_, ?_, ?_⟩
  · intro init s hcd hcp hdiv hle
    exact CircState.calcLr_fst_rise init s hcd hcp hdiv hle
  · intro init s hcd hlt hdiv hbr
    exact CircState.calcLr_fst_fall init s hcd hlt hdiv hbr
  · norm_num [CircState.calcLr]
  · norm_num [CircState.calcLr]

/-- Witness for C6 at concrete mid-phase inputs. -/
theorem circularLR_shape_spec_witness :
    (CircState.calcLr 1
      { nb := 100, div := 4, cut_div := 10, hasCb := false, iteration := 5,
        cycle_iter := 5, cycle_count := 0, cbLog := [] }).map Prod.fst =
      some ((1 : ℚ) / 4 + ((5 : ℚ) / ((100 / 10 : ℕ) : ℚ)) * (1 - 1 / 4)) ∧
    (CircState.calcLr 1
      { nb := 100, div := 4, cut_div := 10, hasCb := false, iteration := 55,
        cycle_iter := 55, cycle_count := 0, cbLog := [] }).map Prod.fst =
      some (1 - (((55 : ℚ) - ((100 / 10 : ℕ) : ℚ)) / ((100 : ℚ) - ((100 / 10 : ℕ) : ℚ))) *
        (1 - 1 / 4)) := by
  constructor
  · have h := circularLR_shape_spec.1 1
      { nb := 100, div := 4, cut_div := 10, hasCb := false, iteration := 5,
        cycle_iter := 5, cycle_count := 0, cbLog := [] }
      (by decide) (by decide) (by norm_num) (by decide)
    simpa using h
  · have h := circularLR_shape_spec.2.1 1
      { nb := 100, div := 4, cut_div := 10, hasCb := false, iteration := 55,
        cycle_iter := 55, cycle_count := 0, cbLog := [] }
      (by decide) (by decide) (by norm_num) (by decide)
    simpa using h

end TriangularShape

section FailFast

/-- Counterexample to C8 as stated: `CircularLR(nb=4, cut_div=8)` (so
`cut_pt = nb // cut_div = 0`) and `CircularLR_beta(nb=1, pct=10)` (so
`cycle_nb = 0`) both construct successfully — the constructors perform no
validation — and the division by zero only surfaces when the first
`calc_lr` runs (inside `on_train_begin`). -/
theorem failfast_counterexample :
    (CircState.construct 4 4 8 false).isSome = true ∧
    ((CircState.construct 4 4 8 false).bind fun s => CircState.onTrainBegin 1 s) = none ∧
    (BetaState.construct 1 10 10 false).isSome = true ∧
    ((BetaState.construct 1 10 10 false).bind fun s => BetaState.onTrainBegin 1 s) = none := by
  refine ⟨rfl, ?_, rfl, ?_⟩
  · norm_num [CircState.construct, CircState.onTrainBegin, CircState.calcLr]
  · norm_num [BetaState.construct, BetaState.onTrainBegin, BetaState.calcLr, ratTrunc]

/-- C8 (amended): constructing a cyclic policy with parameters that make a
schedule divisor zero does NOT fail at construction (the constructors
validate nothing and always succeed); the `ZeroDivisionError` surfaces at
the first `calc_lr` call, which happens inside `on_train_begin` — before
any batch is processed, but after construction. -/
theorem failfast_spec :
    (∀ (nb : ℕ) (div : ℚ) (cut_div : ℕ) (hasCb : Bool),
      ∃ s, CircState.construct nb div cut_div hasCb = some s ∧
        s.nb = nb ∧ s.div = div ∧ s.cut_div = cut_div) ∧
    (∀ (init : ℚ) (s : CircState), s.nb / s.cut_div = 0 →
      CircState.onTrainBegin init s = none) ∧
    (∀ (nb : ℕ) (div pct : ℚ) (hasCb : Bool),
      ∃ s, BetaState.construct nb div pct hasCb = some s ∧
        s.cycle_nb = ratTrunc ((nb : ℚ) * (1 - pct / 100) / 2)) ∧
    (∀ (init : ℚ) (s : BetaState), s.cycle_nb = 0 →
      BetaState.onTrainBegin init s = none) := by
  refine ⟨?_, ?_, ?_, ?_⟩
  · intro nb div cut_div hasCb
    exact ⟨_, rfl, rfl, rfl, rfl⟩
  · intro init s h
    by_cases hcd : s.cut_div = 0
    · simp [CircState.onTrainBegin, CircState.calcLr, hcd]
    · simp [CircState.onTrainBegin, CircState.calcLr, hcd, h]
  · intro nb div pct hasCb
    exact ⟨_, rfl, rfl⟩
  · intro init s h
    simp [BetaState.onTrainBegin, BetaState.calcLr, h]

/-- Witness for C8 (amended) at concrete inputs. -/
theorem failfast_spec_witness :
    (∃ s, CircState.construct 4 4 8 false = some s ∧
      s.nb = 4 ∧ s.div = 4 ∧ s.cut_div = 8) ∧
    CircState.onTrainBegin 1
      { nb := 4, div := 4, cut_div := 8, hasCb := false, iteration := 0,
        cycle_iter := 0, cycle_count := 0, cbLog := [] } = none ∧
    BetaState.onTrainBegin 1
      { nb := 1, div := 10, pct := 10, cycle_nb := 0, hasCb := false, iteration := 0,
        cycle_iter := 0, cycle_count := 0, cbLog := [] } = none := by
  refine ⟨failfast_spec.1 4 4 8 false, ?_, ?_⟩
  · exact failfast_spec.2.1 1
      { nb := 4, div := 4, cut_div := 8, hasCb := false, iteration := 0,
        cycle_iter := 0, cycle_count := 0, cbLog := [] } (by decide)
  · exact failfast_spec.2.2.2 1
      { nb := 1, div := 10, pct := 10, cycle_nb := 0, hasCb := false, iteration := 0,
        cycle_iter := 0, cycle_count := 0, cbLog := [] } (by decide)

end FailFast

section CosAnnealBranches

/-- C2: `CosAnneal.calc_lr` during warm-up (`iteration < nb/20`, i.e. the
first `nb/20` iterations of training — the first cycle) returns
`baseline/100` while still incrementing `cycle_iter` and touching nothing
else; and since the warm-up check compares against the current `nb`, a
boundary-crossing call (checked against the pre-growth `nb`) multiplies
`nb` by `cycle_mult`, so the warm-up window of subsequent calls grows
proportionally to `cycle_mult * nb`. -/
theorem cosAnneal_warmup_spec :
    (∀ (init : ℝ) (s : CosState), 20 * s.iteration < s.nb →
      CosState.calcLr init s = (init / 100, { s with cycle_iter := s.cycle_iter + 1 })) ∧
    (∀ (init : ℝ) (s : CosState), ¬ 20 * s.iteration < s.nb → s.cycle_iter + 1 = s.nb →
      (CosState.calcLr init s).2.nb = s.nb * s.cycle_mult ∧
      (∀ i : ℕ, 20 * i < (CosState.calcLr init s).2.nb ↔ 20 * i < s.nb * s.cycle_mult)) := by
  constructor
  · intro init s h
    simp [CosState.calcLr, h]
  · intro init s h1 h2
    simp [CosState.calcLr, h1, h2]

/-- Witness for C2 at concrete inputs: a warm-up call and a
boundary-crossing call. -/
theorem cosAnneal_warmup_spec_witness :
    CosState.calcLr 1
      { nb := 100, cycle_mult := 2, hasCb := false, iteration := 3,
        cycle_iter := 3, cycle_count := 0, cbLog := [] } =
      ((1 : ℝ) / 100,
        { nb := 100, cycle_mult := 2, hasCb := false, iteration := 3,
          cycle_iter := 4, cycle_count := 0, cbLog := [] }) ∧
    (CosState.calcLr 1
      { nb := 4, cycle_mult := 3, hasCb := false, iteration := 1,
        cycle_iter := 3, cycle_count := 0, cbLog := [] }).2.nb = 12 := by
  constructor
  · exact cosAnneal_warmup_spec.1 1
      { nb := 100, cycle_mult := 2, hasCb := false, iteration := 3,
        cycle_iter := 3, cycle_count := 0, cbLog := [] } (by decide)
  · have h := (cosAnneal_warmup_spec.2 1
      { nb := 4, cycle_mult := 3, hasCb := false, iteration := 1,
        cycle_iter := 3, cycle_count := 0, cbLog := [] } (by decide) (by decide)).1
    simpa using h

/-- Counterexample to C4 as stated: at a cycle boundary with
`cycle_count = 0`, the callback log receives the pre-increment value 0
while `cycle_count` afterwards is 1 — the callback does not see the count
with this completed cycle included (the code calls `on_cycle_end` before
`self.cycle_count += 1`). -/
theorem cosAnneal_cycle_end_counterexample :
    (CosState.calcLr 1
      { nb := 2, cycle_mult := 1, hasCb := true, iteration := 1,
        cycle_iter := 1, cycle_count := 0, cbLog := [] }).2.cbLog = [0] ∧
    (CosState.calcLr 1
      { nb := 2, cycle_mult := 1, hasCb := true, iteration := 1,
        cycle_iter := 1, cycle_count := 0, cbLog := [] }).2.cycle_count = 1 ∧
    ([0] : List ℕ) ≠ [1] := by
  refine ⟨?_, ?_, by decide⟩
  · norm_num [CosState.calcLr]
  · norm_num [CosState.calcLr]

/-- C4 (amended): when the (non-warm-up) boundary check of
`CosAnneal.calc_lr` finds `cycle_iter = nb` after the increment, the policy
resets `cycle_iter` to 0, multiplies `nb` by `cycle_mult`, invokes the
optional cycle-end callback with the pre-increment `cycle_count` (so the
first completed cycle reports 0), and only then increments
`cycle_count`. -/
theorem cosAnneal_cycle_end_spec :
    ∀ (init : ℝ) (s : CosState), ¬ 20 * s.iteration < s.nb → s.cycle_iter + 1 = s.nb →
      (CosState.calcLr init s).2 =
        { s with cycle_iter := 0, nb := s.nb * s.cycle_mult,
                 cbLog := if s.hasCb then s.cbLog ++ [s.cycle_count] else s.cbLog,
                 cycle_count := s.cycle_count + 1 } := by
  intro init s h1 h2
  simp [CosState.calcLr, h1, h2]

/-- Witness for C4 (amended) at a concrete boundary state. -/
theorem cosAnneal_cycle_end_spec_witness :
    (CosState.calcLr 1
      { nb := 2, cycle_mult := 5, hasCb := true, iteration := 1,
        cycle_iter := 1, cycle_count := 7, cbLog := [3] }).2 =
      { nb := 10, cycle_mult := 5, hasCb := true, iteration := 1,
        cycle_iter := 0, cycle_count := 8, cbLog := [3, 7] } := by
  have h := cosAnneal_cycle_end_spec 1
    { nb := 2, cycle_mult := 5, hasCb := true, iteration := 1,
      cycle_iter := 1, cycle_count := 7, cbLog := [3] } (by decide) (by decide)
  simpa using h

end CosAnnealBranches

section RangeTest

namespace FinderState

/-- `lr_mult` as precomputed by `LR_Finder.__init__` in linear mode. -/
lemma mkFinder_lr_mult_linear (baseline end_lr : ℝ) (nb : ℕ) :
    (mkFinder baseline end_lr nb true).lr_mult = (end_lr / baseline) / nb := by
  simp [mkFinder]

/-- `lr_mult` as precomputed by `LR_Finder.__init__` in geometric mode. -/
lemma mkFinder_lr_mult_geom (baseline end_lr : ℝ) (nb : ℕ) :
    (mkFinder baseline end_lr nb false).lr_mult = (end_lr / baseline) ^ ((1:ℝ) / nb) := by
  simp [mkFinder]

/-- Geometric `calc_lr` at iteration 0 is the baseline. -/
lemma calcLr_geom_zero (baseline end_lr : ℝ) (nb : ℕ) :
    ({ mkFinder baseline end_lr nb false with iteration := 0 } : FinderState).calcLr =
      baseline := by
  simp [mkFinder, calcLr]

/-- Geometric `calc_lr` at iteration `nb` is exactly `end_lr` (in exact real
arithmetic; the float computation is approximate). -/
lemma calcLr_geom_end (baseline end_lr : ℝ) (nb : ℕ)
    (h1 : 0 < baseline) (h2 : 0 ≤ end_lr) (hnb : nb ≠ 0) :
    ({ mkFinder baseline end_lr nb false with iteration := nb } : FinderState).calcLr =
      end_lr := by
  have hr : (0:ℝ) ≤ end_lr / baseline := div_nonneg h2 h1.le
  have hnb' : ((nb:ℝ)) ≠ 0 := Nat.cast_ne_zero.mpr hnb
  have key : ((end_lr / baseline) ^ ((1:ℝ) / nb)) ^ (nb : ℕ) = end_lr / baseline := by
    rw [← Real.rpow_natCast ((end_lr / baseline) ^ ((1:ℝ) / nb)) nb,
        ← Real.rpow_mul hr, one_div, inv_mul_cancel₀ hnb', Real.rpow_one]
  have hcl : ({ mkFinder baseline end_lr nb false with iteration := nb } : FinderState).calcLr
      = baseline * ((end_lr / baseline) ^ ((1:ℝ) / nb)) ^ (nb : ℕ) := by
    simp [mkFinder, calcLr]
  rw [hcl, key]
  field_simp

end FinderState

/-- C7: `LR_Finder` precomputes `lr_mult` once at construction as
`(end_lr/baseline)/nb` in linear mode and `(end_lr/baseline)^(1/nb)` in
geometric mode; `calc_lr` returns `baseline * (lr_mult * iteration)`
(linear) or `baseline * lr_mult^iteration` (geometric), where `iteration`
is the recorder's global step counter; in geometric mode the value at
iteration 0 is the baseline and at iteration `nb` is exactly `end_lr` in
real arithmetic. -/
theorem lr_finder_calc_spec :
    (∀ (baseline end_lr : ℝ) (nb : ℕ),
      (FinderState.mkFinder baseline end_lr nb true).lr_mult = (end_lr / baseline) / nb ∧
      (FinderState.mkFinder baseline end_lr nb false).lr_mult =
        (end_lr / baseline) ^ ((1:ℝ) / nb)) ∧
    (∀ (baseline end_lr : ℝ) (nb i : ℕ),
      ({ FinderState.mkFinder baseline end_lr nb true with iteration := i } : FinderState).calcLr =
        baseline * (((end_lr / baseline) / nb) * i) ∧
      ({ FinderState.mkFinder baseline end_lr nb false with iteration := i } : FinderState).calcLr =
        baseline * ((end_lr / baseline) ^ ((1:ℝ) / nb)) ^ i) ∧
    (∀ (baseline end_lr : ℝ) (nb : ℕ),
      ({ FinderState.mkFinder baseline end_lr nb false with iteration := 0 } : FinderState).calcLr =
        baseline) ∧
    (∀ (baseline end_lr : ℝ) (nb : ℕ), 0 < baseline → 0 ≤ end_lr → nb ≠ 0 →
      ({ FinderState.mkFinder baseline end_lr nb false with iteration := nb } : FinderState).calcLr =
        end_lr) := by
  refine ⟨?_, ?_, ?_, ?_⟩
  · intro baseline end_lr nb
    exact ⟨FinderState.mkFinder_lr_mult_linear baseline end_lr nb,
           FinderState.mkFinder_lr_mult_geom baseline end_lr nb⟩
  · intro baseline end_lr nb i
    constructor
    · simp [FinderState.mkFinder, FinderState.calcLr]
    · simp [FinderState.mkFinder, FinderState.calcLr]
  · intro baseline end_lr nb
    exact FinderState.calcLr_geom_zero baseline end_lr nb
  · intro baseline end_lr nb h1 h2 hnb
    exact FinderState.calcLr_geom_end baseline end_lr nb h1 h2 hnb

/-- Witness for C7 at the spec's concrete range test
(`baseline = 0.001, end_lr = 1, nb = 10`). -/
theorem lr_finder_calc_spec_witness :
    ({ FinderState.mkFinder ((1:ℝ)/1000) 1 10 false with iteration := 0 } : FinderState).calcLr =
      (1:ℝ)/1000 ∧
    ({ FinderState.mkFinder ((1:ℝ)/1000) 1 10 false with iteration := 10 } : FinderState).calcLr =
      1 := by
  constructor
  · exact lr_finder_calc_spec.2.2.1 ((1:ℝ)/1000) 1 10
  · exact lr_finder_calc_spec.2.2.2 ((1:ℝ)/1000) 1 10 (by norm_num) (by norm_num) (by norm_num)

end RangeTest

section DivergenceStop

namespace FinderState

/-- The stop signal of `LR_Finder.on_batch_end` is exactly the divergence
test of line 144. -/
lemma onBatchEnd_fst (s : FinderState) (l : Flt) :
    (s.onBatchEnd l).1 = s.stopCond l := by
  by_cases h : s.stopCond l <;> simp [onBatchEnd, h]

/-- When the divergence test fires, `on_batch_end` returns before touching
any state. -/
lemma onBatchEnd_stop_frozen (s : FinderState) (l : Flt)
    (h : (s.onBatchEnd l).1 = true) : (s.onBatchEnd l).2 = s := by
  rw [onBatchEnd_fst] at h
  simp [onBatchEnd, h]

/-- Folding the recorder over a cons. -/
lemma afterLosses_cons (s : FinderState) (l : Flt) (ls : List Flt) :
    s.afterLosses (l :: ls) = ((s.onBatchEnd l).2).afterLosses ls := rfl

/-- `best` is never updated during the first 11 calls (`iteration ≤ 10`,
line 146 requires `iteration > 10`). -/
lemma onBatchEnd_best_le10 (s : FinderState) (l : Flt) (h : s.iteration ≤ 10) :
    (s.onBatchEnd l).2.best = s.best := by
  by_cases hc : s.stopCond l
  · simp [onBatchEnd, hc]
  · cases l with
    | nan => simp [onBatchEnd, hc, recordAndUpdate]
    | val x =>
      have hno : ¬ (x < s.best ∧ 10 < s.iteration) := by
        rintro ⟨-, h2⟩
        omega
      simp [onBatchEnd, hc, hno, recordAndUpdate]

/-- `best` takes the incoming loss when it is lower, past iteration 10, and
the step did not stop. -/
lemma onBatchEnd_best_update (s : FinderState) (x : ℚ)
    (hc : s.stopCond (Flt.val x) = false) (hlt : x < s.best) (hit : 10 < s.iteration) :
    (s.onBatchEnd (Flt.val x)).2.best = x := by
  simp [onBatchEnd, hc, hlt, hit, recordAndUpdate]

/-- `LR_Finder.firstStop` finds exactly the least offending batch: the run
stops at index `k` iff batch `k` satisfies the divergence test against the
state evolved through the first `k` batches, and no earlier batch does. -/
lemma firstStop_iff : ∀ (ls : List Flt) (s : FinderState) (k : ℕ),
    s.firstStop ls = some k ↔
      ((∃ l, ls[k]? = some l ∧ (s.afterLosses (ls.take k)).stopCond l = true) ∧
       ∀ j l, j < k → ls[j]? = some l →
         (s.afterLosses (ls.take j)).stopCond l = false) := by
  intro ls
  induction ls with
  | nil =>
    intro s k
    simp [firstStop]
  | cons l ls ih =>
    intro s k
    by_cases hstop : s.stopCond l = true
    · have hfst : (s.onBatchEnd l).1 = true := by rw [onBatchEnd_fst]; exact hstop
      cases k with
      | zero =>
        simp [firstStop, hfst, afterLosses, hstop]
      | succ k =>
        simp only [firstStop, hfst, if_true]
        constructor
        · intro h
          exact absurd h (by simp)
        · rintro ⟨-, hall⟩
          have := hall 0 l (Nat.succ_pos k) (by simp)
          rw [List.take_zero] at this
          simp [afterLosses] at this
          rw [hstop] at this
          exact absurd this (by simp)
    · have hstop' : s.stopCond l = false := by simpa using hstop
      have hfst : (s.onBatchEnd l).1 = false := by rw [onBatchEnd_fst]; exact hstop'
      cases k with
      | zero =>
        simp only [firstStop, hfst, Bool.false_eq_true, if_false]
        constructor
        · intro h
          rcases Option.map_eq_some'.mp h with ⟨a, -, ha⟩
          exact absurd ha (by omega)
        · rintro ⟨⟨l', hl', hc⟩, -⟩
          simp at hl'
          rw [← hl'] at hc
          rw [List.take_zero] at hc
          simp [afterLosses] at hc
          rw [hstop'] at hc
          exact absurd hc (by simp)
      | succ k =>
        have heq := ih (s.onBatchEnd l).2 k
        simp only [firstStop, hfst, Bool.false_eq_true, if_false]
        constructor
        · intro h
          rcases Option.map_eq_some'.mp h with ⟨a, ha, hak⟩
          have hak' : a = k := by omega
          rw [hak'] at ha
          rcases heq.mp ha with ⟨⟨l', hl', hc⟩, hall⟩
          refine ⟨⟨l', by simpa using hl', ?_⟩, ?_⟩
          · rw [List.take_succ_cons, afterLosses_cons]
            exact hc
          · intro j lj hj hlj
            cases j with
            | zero =>
              simp at hlj
              rw [← hlj, List.take_zero]
              simpa [afterLosses] using hstop'
            | succ j =>
              rw [List.take_succ_cons, afterLosses_cons]
              exact hall j lj (by omega) (by simpa using hlj)
        · rintro ⟨⟨l', hl', hc⟩, hall⟩
          have hsome : (s.onBatchEnd l).2.firstStop ls = some k := by
            apply heq.mpr
            refine ⟨⟨l', by simpa using hl', ?_⟩, ?_⟩
            · rw [List.take_succ_cons, afterLosses_cons] at hc
              exact hc
            · intro j lj hj hlj
              have := hall (j + 1) lj (by omega) (by simpa using hlj)
              rw [List.take_succ_cons, afterLosses_cons] at this
              exact this
          rw [hsome]
          simp

/-- The `LR_Finder2` refinement stops once `iteration` equals the budget
`nb`, regardless of the divergence flag. -/
lemma onBatchEnd2_fst (nb : ℕ) (s : FinderState) (l : Flt) :
    (onBatchEnd2 nb s l).1 = (decide (s.iteration = nb) || (s.onBatchEnd l).1) := by
  by_cases hit : s.iteration = nb <;> simp [onBatchEnd2, hit]

/-- With `stop_dv = false` the divergence check is disabled entirely:
`LR_Finder2` stops exactly at the iteration budget. -/
lemma onBatchEnd2_no_dv (nb : ℕ) (s : FinderState) (l : Flt) (h : s.stop_dv = false) :
    ((onBatchEnd2 nb s l).1 = true ↔ s.iteration = nb) := by
  have hb : (s.onBatchEnd l).1 = false := by
    rw [onBatchEnd_fst]
    simp [stopCond, h]
  by_cases hit : s.iteration = nb <;> simp [onBatchEnd2, hit, hb]

end FinderState

/-- C5: `LR_Finder.on_batch_end` returns stop=true exactly when the
divergence check is enabled and the incoming loss is NaN or exceeds
`4 × best`; `best` is never updated while `iteration ≤ 10` and takes a
lower loss after iteration 10 on a non-stopping step; feeding any loss
sequence (in particular a strictly increasing one) batch by batch, the run
signals stop at index `k` iff batch `k` is the first one satisfying the
divergence test against the evolved `best` — at the first offending batch
and never before; `LR_Finder2` additionally stops unconditionally once
`iteration` reaches the budget `nb`, and with `stop_dv = false` it stops
exactly at the budget (the divergence check is disabled entirely). -/
theorem lr_finder_stop_spec :
    (∀ (s : FinderState) (l : Flt),
      (s.onBatchEnd l).1 = (s.stop_dv && (l.isnan || l.gtQ (s.best * 4)))) ∧
    (∀ (s : FinderState) (l : Flt), s.iteration ≤ 10 →
      (s.onBatchEnd l).2.best = s.best) ∧
    (∀ (s : FinderState) (x : ℚ), s.stopCond (Flt.val x) = false →
      x < s.best → 10 < s.iteration →
      (s.onBatchEnd (Flt.val x)).2.best = x) ∧
    (∀ (ls : List Flt) (s : FinderState) (k : ℕ),
      s.firstStop ls = some k ↔
        ((∃ l, ls[k]? = some l ∧ (s.afterLosses (ls.take k)).stopCond l = true) ∧
         ∀ j l, j < k → ls[j]? = some l →
           (s.afterLosses (ls.take j)).stopCond l = false)) ∧
    (∀ (nb : ℕ) (s : FinderState) (l : Flt),
      (FinderState.onBatchEnd2 nb s l).1 =
        (decide (s.iteration = nb) || (s.onBatchEnd l).1)) ∧
    (∀ (nb : ℕ) (s : FinderState) (l : Flt), s.stop_dv = false →
      ((FinderState.onBatchEnd2 nb s l).1 = true ↔ s.iteration = nb)) := by
  refine ⟨?_, ?_, ?_, ?_, ?_, ?_⟩
  · intro s l
    rw [FinderState.onBatchEnd_fst]
    rfl
  · intro s l h
    exact FinderState.onBatchEnd_best_le10 s l h
  · intro s x hc hlt hit
    exact FinderState.onBatchEnd_best_update s x hc hlt hit
  · intro ls s k
    exact FinderState.firstStop_iff ls s k
  · intro nb s l
    exact FinderState.onBatchEnd2_fst nb s l
  · intro nb s l h
    exact FinderState.onBatchEnd2_no_dv nb s l h

/-- Witness for C5 at concrete states. -/
theorem lr_finder_stop_spec_witness :
    (({ iteration := 0, losses := [], lrs := [], iterations := [], opt_lr := 1,
        init_lr := 1, lr_mult := 1, linear := true, stop_dv := true,
        best := 1 } : FinderState).onBatchEnd (Flt.val 3)).2.best = 1 ∧
    (({ iteration := 11, losses := [], lrs := [], iterations := [], opt_lr := 1,
        init_lr := 1, lr_mult := 1, linear := true, stop_dv := true,
        best := 1 } : FinderState).onBatchEnd (Flt.val (1/2))).2.best = 1/2 ∧
    ((FinderState.onBatchEnd2 7
      { iteration := 7, losses := [], lrs := [], iterations := [], opt_lr := 1,
        init_lr := 1, lr_mult := 1, linear := true, stop_dv := false,
        best := 1 } (Flt.val 3)).1 = true ↔ (7 : ℕ) = 7) := by
  refine ⟨?_, ?_, ?_⟩
  · exact lr_finder_stop_spec.2.1
      { iteration := 0, losses := [], lrs := [], iterations := [], opt_lr := 1,
        init_lr := 1, lr_mult := 1, linear := true, stop_dv := true, best := 1 }
      (Flt.val 3) (by norm_num)
  · exact lr_finder_stop_spec.2.2.1
      { iteration := 11, losses := [], lrs := [], iterations := [], opt_lr := 1,
        init_lr := 1, lr_mult := 1, linear := true, stop_dv := true, best := 1 }
      (1/2)
      (by norm_num [FinderState.stopCond, Flt.isnan, Flt.gtQ]) (by norm_num) (by norm_num)
  · exact lr_finder_stop_spec.2.2.2.2.2 7
      { iteration := 7, losses := [], lrs := [], iterations := [], opt_lr := 1,
        init_lr := 1, lr_mult := 1, linear := true, stop_dv := false, best := 1 }
      (Flt.val 3) rfl

/-- C10: whenever `LR_Finder.on_batch_end` returns the stop signal, the
entire state is left unchanged by that call — nothing is appended to
`losses`/`lrs`/`iterations`, `iteration` is not incremented, `best` is not
updated, and the optimizer learning rate is not recomputed or pushed. -/
theorem lr_finder_stop_preserves_state :
    ∀ (s : FinderState) (l : Flt), (s.onBatchEnd l).1 = true →
      (s.onBatchEnd l).2 = s := by
  intro s l h
  exact FinderState.onBatchEnd_stop_frozen s l h

/-- Witness for C10 at a concrete diverging state. -/
theorem lr_finder_stop_preserves_state_witness :
    (({ iteration := 20, losses := [Flt.val 1], lrs := [1], iterations := [1], opt_lr := 1,
        init_lr := 1, lr_mult := 1, linear := true, stop_dv := true,
        best := 1 } : FinderState).onBatchEnd (Flt.val 5)).2 =
      { iteration := 20, losses := [Flt.val 1], lrs := [1], iterations := [1], opt_lr := 1,
        init_lr := 1, lr_mult := 1, linear := true, stop_dv := true, best := 1 } :=
  lr_finder_stop_preserves_state
    { iteration := 20, losses := [Flt.val 1], lrs := [1], iterations := [1], opt_lr := 1,
      init_lr := 1, lr_mult := 1, linear := true, stop_dv := true, best := 1 }
    (Flt.val 5)
    (by norm_num [FinderState.onBatchEnd, FinderState.stopCond, Flt.gtQ, Flt.isnan])

end DivergenceStop
